import Mathlib

/-!
Verification of the FileKitty Session History & Staleness Detection Engine
(src/filekitty/core/history_manager.py and src/filekitty/core/utils.py),
as a shallow embedding in Lean 4.

The disk holding user files is modelled as a function from path to a
FileState (absent, unreadable, or readable content as a byte list); the
snapshot store is an association list from directory path to a directory
listing (file name to parsed-or-corrupt JSON content).  SHA-256 itself is
kept abstract as a parameter hashHex over full byte contents; the chunked
read loop of calculate_file_hash is modelled explicitly via chunksOf.
-/

namespace FileKitty

/-! ## Constants and the disk model -/

/-- Constants from src/filekitty/constants.py. -/
def HISTORY_DIR_NAME : String := "FileKittyHistory"

def STALE_CHECK_INTERVAL_MS : Nat := 2500

def HASH_ERROR_SENTINEL : String := "HASH_ERROR"

def HASH_MISSING_SENTINEL : String := "FILE_MISSING"

def TEXT_CHECK_CHUNK_SIZE : Nat := 1024

/-- State of a path on the user-visible disk: the file may be absent
(open raises FileNotFoundError), unreadable (PermissionError or any other
OSError), or present with the given byte content. -/
inductive FileState where
  | absent
  | unreadable
  | content (bytes : List Nat)
deriving Repr, DecidableEq

/-- A disk: what each path currently holds. -/
abbrev Disk : Type := String → FileState

/-- One byte is a UTF-8 continuation byte (0x80..0xBF). -/
def isCont (b : Nat) : Bool := 0x80 ≤ b && b ≤ 0xBF

/-- Strict UTF-8 validity of a byte list, as checked by Python's
bytes.decode with the utf-8 codec: surrogates and overlong encodings are
rejected, and a sequence truncated mid-character is invalid. -/
def validUtf8 : List Nat → Bool
  | [] => true
  | b :: rest =>
    if b ≤ 0x7F then validUtf8 rest
    else if 0xC2 ≤ b && b ≤ 0xDF then
      match rest with
      | c1 :: rest1 => isCont c1 && validUtf8 rest1
      | [] => false
    else if b = 0xE0 then
      match rest with
      | c1 :: c2 :: rest2 => (0xA0 ≤ c1 && c1 ≤ 0xBF) && isCont c2 && validUtf8 rest2
      | _ => false
    else if (0xE1 ≤ b && b ≤ 0xEC) || b = 0xEE || b = 0xEF then
      match rest with
      | c1 :: c2 :: rest2 => isCont c1 && isCont c2 && validUtf8 rest2
      | _ => false
    else if b = 0xED then
      match rest with
      | c1 :: c2 :: rest2 => (0x80 ≤ c1 && c1 ≤ 0x9F) && isCont c2 && validUtf8 rest2
      | _ => false
    else if b = 0xF0 then
      match rest with
      | c1 :: c2 :: c3 :: rest3 =>
        (0x90 ≤ c1 && c1 ≤ 0xBF) && isCont c2 && isCont c3 && validUtf8 rest3
      | _ => false
    else if 0xF1 ≤ b && b ≤ 0xF3 then
      match rest with
      | c1 :: c2 :: c3 :: rest3 => isCont c1 && isCont c2 && isCont c3 && validUtf8 rest3
      | _ => false
    else if b = 0xF4 then
      match rest with
      | c1 :: c2 :: c3 :: rest3 =>
        (0x80 ≤ c1 && c1 ≤ 0x8F) && isCont c2 && isCont c3 && validUtf8 rest3
      | _ => false
    else false

/-- is_text_file from src/filekitty/core/utils.py: opens the file, reads
the first TEXT_CHECK_CHUNK_SIZE bytes, rejects on a null byte, accepts iff
the chunk decodes as UTF-8; any OSError / FileNotFoundError (or any other
exception) yields false. -/
def is_text_file (disk : Disk) (file_path : String) : Bool :=
  match disk file_path with
  | .absent => false
  | .unreadable => false
  | .content bytes =>
    let chunk := bytes.take TEXT_CHECK_CHUNK_SIZE
    if chunk.contains 0 then false
    else validUtf8 chunk

/-- Fueled splitting of a byte list into chunks of at most n bytes. -/
def chunksOfAux (n : Nat) : Nat → List Nat → List (List Nat)
  | _, [] => []
  | 0, _ => []
  | fuel + 1, l => l.take n :: chunksOfAux n fuel (l.drop n)

/-- The successive chunks returned by the read loop of
calculate_file_hash (f.read n until empty). -/
def chunksOf (n : Nat) (l : List Nat) : List (List Nat) := chunksOfAux n l.length l

/-- calculate_file_hash from history_manager.py: streams the file in
4096-byte chunks feeding an incremental SHA-256 (modelled as hashHex of
the concatenation of the chunks), returns the hex digest; a missing file
yields HASH_MISSING_SENTINEL, a PermissionError or any other error yields
HASH_ERROR_SENTINEL.  Total: it never raises. -/
def calculate_file_hash (hashHex : List Nat → String) (disk : Disk) (file_path : String) :
    String :=
  match disk file_path with
  | .absent => HASH_MISSING_SENTINEL
  | .unreadable => HASH_ERROR_SENTINEL
  | .content bytes => hashHex ((chunksOf 4096 bytes).flatten)

/-! ## Python dict model -/

/-- Key lookup in an association list (Python dict indexing / file lookup
in a directory listing); first match wins. -/
def findVal {α : Type} (k : String) : List (String × α) → Option α
  | [] => none
  | (k2, v) :: rest => if k = k2 then some v else findVal k rest

/-- Replace the value stored under an existing key, keeping positions. -/
def replaceVal {α : Type} (k : String) (v : α) : List (String × α) → List (String × α)
  | [] => []
  | (k2, v2) :: rest =>
    if k2 = k then (k, v) :: replaceVal k v rest else (k2, v2) :: replaceVal k v rest

/-- Python dict item assignment d[k] = v: update in place if the key is
present, else append at the end. -/
def dictInsert (m : List (String × String)) (k v : String) : List (String × String) :=
  if (m.map Prod.fst).contains k then replaceVal k v m
  else m ++ [(k, v)]

/-- The dict comprehension (f hashed for f in ks), left to right. -/
def dictOfList (ks : List String) (f : String → String) : List (String × String) :=
  ks.foldl (fun m k => dictInsert m k (f k)) []

/-- Python dict equality: every key of either side maps to the same
(possibly absent) value on both sides. -/
def dictEq (a b : List (String × String)) : Bool :=
  (a.map Prod.fst ++ b.map Prod.fst).all (fun k => findVal k a == findVal k b)

/-- The state dictionary built by HistoryManager.create_new_state and
persisted as one JSON file per snapshot. -/
structure SessionState where
  id : String
  timestamp : String
  files : List String
  selected_items : List String
  selection_mode : String
  selected_file : Option String
  file_hashes : List (String × String)
deriving Repr, DecidableEq

instance : Inhabited SessionState := ⟨⟨"", "", [], [], "", none, []⟩⟩

/-- Equality of the comparable fields used by the de-duplication check in
create_new_state: files, selected_items, selection_mode, selected_file
and file_hashes (Python == on lists, strings, optionals and dicts);
id and timestamp are excluded. -/
def comparableEq (a b : SessionState) : Bool :=
  a.files == b.files && a.selected_items == b.selected_items &&
  a.selection_mode == b.selection_mode && a.selected_file == b.selected_file &&
  dictEq a.file_hashes b.file_hashes

/-! ## JSON values and the persisted snapshot format -/

inductive Json where
  | null
  | str (s : String)
  | arr (elems : List Json)
  | obj (fields : List (String × Json))

/-- Serialization of a state dict by json.dump, one field per dict key in
insertion order (the persisted record format of the spec). -/
def encodeState (s : SessionState) : Json :=
  .obj [("id", .str s.id),
        ("timestamp", .str s.timestamp),
        ("files", .arr (s.files.map .str)),
        ("selected_items", .arr (s.selected_items.map .str)),
        ("selection_mode", .str s.selection_mode),
        ("selected_file", match s.selected_file with | none => .null | some f => .str f),
        ("file_hashes", .obj (s.file_hashes.map (fun p => (p.1, .str p.2))))]

def jStr : Json → Option String
  | .str s => some s
  | _ => none

def jStrOpt : Json → Option (Option String)
  | .null => some none
  | .str s => some (some s)
  | _ => none

def jStrListAux : List Json → Option (List String)
  | [] => some []
  | x :: xs => do
    let s ← jStr x
    let rest ← jStrListAux xs
    pure (s :: rest)

def jStrList : Json → Option (List String)
  | .arr xs => jStrListAux xs
  | _ => none

def jStrDictAux : List (String × Json) → Option (List (String × String))
  | [] => some []
  | (k, v) :: xs => do
    let s ← jStr v
    let rest ← jStrDictAux xs
    pure ((k, s) :: rest)

def jStrDict : Json → Option (List (String × String))
  | .obj fs => jStrDictAux fs
  | _ => none

def jField (j : Json) (k : String) : Option Json :=
  match j with
  | .obj fs => findVal k fs
  | _ => none

/-- Reading a persisted snapshot record back into a typed state:
recovers every field of the SessionState from its JSON form. -/
def decodeState (j : Json) : Option SessionState := do
  let i ← jField j "id" >>= jStr
  let ts ← jField j "timestamp" >>= jStr
  let fs ← jField j "files" >>= jStrList
  let si ← jField j "selected_items" >>= jStrList
  let sm ← jField j "selection_mode" >>= jStr
  let sf ← jField j "selected_file" >>= jStrOpt
  let fh ← jField j "file_hashes" >>= jStrDict
  pure ⟨i, ts, fs, si, sm, sf, fh⟩

/-! ## The snapshot store -/

inductive FileContent where
  | json (j : Json)
  | corrupt

abbrev DirListing : Type := List (String × FileContent)

abbrev Dirs : Type := List (String × DirListing)

def lookupDir (dirs : Dirs) (d : String) : Option DirListing := findVal d dirs

/-- Replace the listing of directory d (create the entry if absent). -/
def setDir (dirs : Dirs) (d : String) (fs : DirListing) : Dirs :=
  if (dirs.map Prod.fst).contains d then replaceVal d fs dirs
  else dirs ++ [(d, fs)]

/-- open(path, "w") + json.dump: create or overwrite one file. -/
def writeFile (dirs : Dirs) (d name : String) (c : FileContent) : Dirs :=
  setDir dirs d (((lookupDir dirs d).getD []).filter (fun pr => pr.1 ≠ name) ++ [(name, c)])

/-- os.remove: drop one file; a failure (no such file / no such directory)
is caught and logged by the callers, leaving the store unchanged. -/
def removeFile (dirs : Dirs) (d name : String) : Dirs :=
  match lookupDir dirs d with
  | none => dirs
  | some fs => setDir dirs d (fs.filter (fun pr => pr.1 ≠ name))

def lookupFile (dirs : Dirs) (d name : String) : Option FileContent :=
  (lookupDir dirs d).bind (findVal name)

/-- Path.mkdir(exist_ok=True): add an empty directory if absent. -/
def mkdirDirs (dirs : Dirs) (d : String) : Dirs :=
  if (dirs.map Prod.fst).contains d then dirs else dirs ++ [(d, [])]

/-- os.rmdir of an (empty) directory. -/
def rmdirDirs (dirs : Dirs) (d : String) : Dirs := dirs.filter (fun p => p.1 ≠ d)

/-! ## HistoryManager and its operations -/

/-- The mutable fields of HistoryManager (the UI reference and timer are
presentation-side collaborators, not modelled). -/
structure HistoryManager where
  history_dir : String
  history_base_path : String
  history : List SessionState
  history_index : Int
  is_loading_state : Bool

/-- A HistoryManager together with the snapshot store it acts on. -/
structure World where
  mgr : HistoryManager
  dirs : Dirs

/-- check_stale_status: walks the keys of the stored file_hashes dict of
the state the history currently points at; for each path that the text
sniffer still accepts, recomputes the hash and classifies it against the
stored one; a falsy state_data yields the empty dict. -/
def check_stale_status (hashHex : List Nat → String) (disk : Disk) (itf : String → Bool)
    (state_data : Option SessionState) : List (String × String) :=
  match state_data with
  | none => []
  | some sd =>
    (sd.file_hashes.map Prod.fst).foldl (fun stale_files file_path =>
      if itf file_path then
        let current_hash := calculate_file_hash hashHex disk file_path
        match findVal file_path sd.file_hashes with
        | none => stale_files
        | some stored_hash =>
          if current_hash = HASH_MISSING_SENTINEL then stale_files ++ [(file_path, "missing")]
          else if current_hash = HASH_ERROR_SENTINEL then stale_files ++ [(file_path, "error")]
          else if current_hash ≠ stored_hash then stale_files ++ [(file_path, "modified")]
          else stale_files
      else stale_files) []

/-- The state dict assembled by create_new_state before the duplicate
check: text files are filtered by the supplied sniffer and hashed. -/
def capturedState (hashHex : List Nat → String) (itf : String → Bool) (disk : Disk)
    (newId newTimestamp : String) (current_files selected_items : List String)
    (selection_mode : String) (selected_file : Option String) : SessionState :=
  let current_text_files := current_files.filter itf
  { id := newId, timestamp := newTimestamp, files := current_files,
    selected_items := selected_items, selection_mode := selection_mode,
    selected_file := selected_file,
    file_hashes := dictOfList current_text_files (calculate_file_hash hashHex disk) }

/-- Python slice bound: the index history[.. k] actually uses. -/
def pySliceIdx (k : Int) (len : Nat) : Nat :=
  if k < 0 then ((len : Int) + k).toNat else min k.toNat len

/-- The part of the history kept by a capture: everything up to and
including the current index when the index is not at the tail
(history[: history_index + 1]), the whole list otherwise. -/
def truncatedHistory (w : World) : List SessionState :=
  if w.mgr.history_index < (w.mgr.history.length : Int) - 1
  then w.mgr.history.take (pySliceIdx (w.mgr.history_index + 1) w.mgr.history.length)
  else w.mgr.history

/-- The branch discarded by a capture: everything strictly after the
current index when the index is not at the tail
(history[history_index + 1 :]), nothing otherwise. -/
def discardedStates (w : World) : List SessionState :=
  if w.mgr.history_index < (w.mgr.history.length : Int) - 1
  then w.mgr.history.drop (pySliceIdx (w.mgr.history_index + 1) w.mgr.history.length)
  else []

/-- create_new_state: no-op while the loading guard is set or history is
disabled (empty history_dir); builds the new state dict; returns without
any change when it duplicates the state at history_index; otherwise
writes the snapshot file (saveOk models the open/json.dump try block:
when false the write failed and nothing changes), discards the branch
after history_index together with its snapshot files, appends, and moves
history_index to the tail. -/
def create_new_state (hashHex : List Nat → String) (itf : String → Bool) (disk : Disk)
    (w : World) (newId newTimestamp : String) (current_files selected_items : List String)
    (selection_mode : String) (selected_file : Option String) (saveOk : Bool) : World :=
  if w.mgr.is_loading_state = true ∨ w.mgr.history_dir = "" then w
  else if 0 ≤ w.mgr.history_index ∧ w.mgr.history_index < (w.mgr.history.length : Int) ∧
      comparableEq
        (capturedState hashHex itf disk newId newTimestamp current_files selected_items
          selection_mode selected_file)
        (w.mgr.history.getD w.mgr.history_index.toNat default) = true then w
  else if saveOk = false then w
  else
    { mgr := { w.mgr with
        history := truncatedHistory w ++
          [capturedState hashHex itf disk newId newTimestamp current_files selected_items
            selection_mode selected_file]
        history_index := ((truncatedHistory w ++
          [capturedState hashHex itf disk newId newTimestamp current_files selected_items
            selection_mode selected_file]).length : Int) - 1 },
      dirs := (discardedStates w).foldl
        (fun ds old => removeFile ds w.mgr.history_dir ("state_" ++ old.id ++ ".json"))
        (writeFile w.dirs w.mgr.history_dir ("state_" ++ newId ++ ".json")
          (.json (encodeState
            (capturedState hashHex itf disk newId newTimestamp current_files selected_items
              selection_mode selected_file)))) }

/-- load_state: returns None on an out-of-range index; otherwise sets the
loading guard, reads the snapshot file of the referenced state, and
either returns the parsed record and moves history_index, or — when the
file is missing or corrupt — deletes the reference and clamps
history_index to the shortened list.  The finally clause clears the
loading guard on every path that entered the read. -/
def load_state (w : World) (state_index : Int) : Option Json × World :=
  if 0 ≤ state_index ∧ state_index < (w.mgr.history.length : Int) then
    match lookupFile w.dirs w.mgr.history_dir
        ("state_" ++ (w.mgr.history.getD state_index.toNat default).id ++ ".json") with
    | some (.json j) =>
      let mgr1 := { w.mgr with
        history_index := state_index
        is_loading_state := false }
      (some j, { w with mgr := mgr1 })
    | some .corrupt =>
      let hist1 := w.mgr.history.eraseIdx state_index.toNat
      let mgr1 := { w.mgr with
        history := hist1
        history_index := min w.mgr.history_index ((hist1.length : Int) - 1)
        is_loading_state := false }
      (none, { w with mgr := mgr1 })
    | none =>
      let hist1 := w.mgr.history.eraseIdx state_index.toNat
      let mgr1 := { w.mgr with
        history := hist1
        history_index := min w.mgr.history_index ((hist1.length : Int) - 1)
        is_loading_state := false }
      (none, { w with mgr := mgr1 })
  else (none, w)

/-- A file name the store recognizes as one of its snapshot records. -/
def isStateFile (name : String) : Bool :=
  name.startsWith "state_" && name.endsWith ".json"

/-- Truthiness of the specific_dir argument of cleanup_history_files
(Python: None and the empty string are falsy). -/
def specFalsyOf (specific_dir : Option String) : Bool :=
  match specific_dir with
  | none => true
  | some s => s == ""

/-- The directory cleanup_history_files actually works on:
specific_dir or self.history_dir. -/
def cleanupDirOf (w : World) (specific_dir : Option String) : String :=
  if specFalsyOf specific_dir = true then w.mgr.history_dir else specific_dir.getD ""

/-- cleanup_history_files: best-effort deletion of every snapshot record
in the target directory (the explicit argument, or the active history
directory when the argument is falsy); skips silently when the directory
is unset or not a directory; in the default-directory case also removes
the directory itself when it ended up empty and is the store's own
managed subdirectory. -/
def cleanup_history_files (w : World) (specific_dir : Option String) : Dirs :=
  if cleanupDirOf w specific_dir = "" then w.dirs
  else
    match lookupDir w.dirs (cleanupDirOf w specific_dir) with
    | none => w.dirs
    | some files =>
      if specFalsyOf specific_dir &&
          (cleanupDirOf w specific_dir).endsWith HISTORY_DIR_NAME &&
          (files.filter (fun pr => !(isStateFile pr.1))).isEmpty then
        rmdirDirs
          (setDir w.dirs (cleanupDirOf w specific_dir)
            (files.filter (fun pr => !(isStateFile pr.1))))
          (cleanupDirOf w specific_dir)
      else
        setDir w.dirs (cleanupDirOf w specific_dir)
          (files.filter (fun pr => !(isStateFile pr.1)))

/-- The environment _initialize_history_directory consults: the QSettings
value for the stored base path, the platform temp/cache location (the
darwin/xdg fallback chain collapsed into one resolved path), which base
paths are directories, and which mkdir calls succeed. -/
structure Env where
  settingsHistoryPath : String
  tempLoc : String
  isdir : String → Bool
  mkdirOk : String → Bool

/-- _initialize_history_directory: prefers the in-memory base path, then
the stored setting, when it names an existing directory; otherwise falls
back to the platform location and records that the default is in use
(empty base path).  Appends the managed subdirectory name and creates it;
on failure history_dir becomes empty, disabling history.  Returns the new
(history_base_path, history_dir) pair. -/
def initialize_history_directory (env : Env) (history_base_path : String) : String × String :=
  let stored_base_path := if history_base_path ≠ "" then history_base_path
    else env.settingsHistoryPath
  let pair := if stored_base_path ≠ "" ∧ env.isdir stored_base_path = true
    then (stored_base_path, stored_base_path)
    else (env.tempLoc, "")
  let history_path := pair.1 ++ "/" ++ HISTORY_DIR_NAME
  if env.mkdirOk history_path = true then (pair.2, history_path) else (pair.2, "")

/-- change_history_directory: stops the staleness timer (UI side), purges
the snapshot files of the old directory, clears the in-memory history and
resets the index, then re-resolves the storage directory against the new
base path (creating it when possible). -/
def change_history_directory (env : Env) (w : World) (new_base_path : String) : World :=
  { mgr := { w.mgr with
      history := ([] : List SessionState)
      history_index := (-1 : Int)
      history_base_path := (initialize_history_directory env new_base_path).1
      history_dir := (initialize_history_directory env new_base_path).2 },
    dirs := if (initialize_history_directory env new_base_path).2 ≠ ""
      then mkdirDirs (cleanup_history_files w (some w.mgr.history_dir))
        (initialize_history_directory env new_base_path).2
      else cleanup_history_files w (some w.mgr.history_dir) }

/-! ## Concrete sample objects used in closed statements -/

/-- A stand-in digest function used to instantiate the abstract hasher in
closed witnesses: constant 64-character hex string. -/
def sampleHash : List Nat → String :=
  fun _ => "0000000000000000000000000000000000000000000000000000000000000000"

def isHexDigitChar (c : Char) : Bool :=
  (48 ≤ c.toNat && c.toNat ≤ 57) || (97 ≤ c.toNat && c.toNat ≤ 102)

/-- A 64-character lowercase hex string, the shape of a SHA-256 hexdigest. -/
def isHexDigest64 (s : String) : Bool :=
  s.length == 64 && s.toList.all isHexDigitChar

/-- A disk on which every path is absent. -/
def diskAbsent : Disk := fun _ => FileState.absent

/-- A snapshot whose stored hash map tracks one path. -/
def sdC1 : SessionState :=
  { id := "id-1", timestamp := "2025-01-01T00:00:00",
    files := ["/a.txt"], selected_items := [], selection_mode := "All Files",
    selected_file := none,
    file_hashes :=
      [("/a.txt", "1111111111111111111111111111111111111111111111111111111111111111")] }

/-- A minimal stored state used in concrete witnesses. -/
def sd0 : SessionState := ⟨"old-id", "t0", [], [], "All Files", none, []⟩

/-- A world with a one-entry history pointing at sd0 whose snapshot file
is missing from the store. -/
def wOne : World := ⟨⟨"/h", "", [sd0], 0, false⟩, []⟩

/-- An entry discarded by the two-state branch-discard witness. -/
def sdB : SessionState := ⟨"b-id", "t2", ["/b.txt"], [], "All Files", none, []⟩

/-- A world whose history holds two states with the index at the first,
and whose store holds the second state's snapshot file. -/
def wTwo : World :=
  ⟨⟨"/h", "", [sd0, sdB], 0, false⟩, [("/h", [("state_b-id.json", .json .null)])]⟩

/-! ## The history invariant and the reachable worlds -/

/-- The HistoryList invariant of the spec: the index is -1 or a valid
position, and it is -1 exactly when the list is empty. -/
def Inv (m : HistoryManager) : Prop :=
  -1 ≤ m.history_index ∧ m.history_index < (m.history.length : Int) ∧
  (m.history_index = -1 ↔ m.history.length = 0)

/-- The worlds reachable from a fresh HistoryManager (empty history,
index -1, guard off, any resolved directory and store) by any sequence
of captures, navigation loads and storage relocations. -/
inductive Reachable : World → Prop where
  | init (history_dir history_base_path : String) (dirs : Dirs) :
      Reachable ⟨⟨history_dir, history_base_path, [], -1, false⟩, dirs⟩
  | capture (w : World) (hashHex : List Nat → String) (itf : String → Bool) (disk : Disk)
      (newId newTimestamp : String) (current_files selected_items : List String)
      (selection_mode : String) (selected_file : Option String) (saveOk : Bool) :
      Reachable w →
      Reachable (create_new_state hashHex itf disk w newId newTimestamp current_files
        selected_items selection_mode selected_file saveOk)
  | load (w : World) (i : Int) : Reachable w → Reachable (load_state w i).2
  | relocate (w : World) (env : Env) (new_base_path : String) :
      Reachable w → Reachable (change_history_directory env w new_base_path)

/-- A relocation environment: no user path configured, a valid platform
temp location, mkdir succeeding. -/
def envW : Env := ⟨"", "/tmp", fun _ => false, fun _ => true⟩

/-- A world with one history entry whose store directory holds its
snapshot file plus an unrelated file. -/
def wC8 : World :=
  ⟨⟨"/h", "", [sd0], 0, false⟩,
   [("/h", [("state_old-id.json", .json .null), ("notes.txt", .corrupt)])]⟩

/-! ## Lemmas about hashing, the store and the operations -/

theorem chunksOfAux_join (n : Nat) (hn : 0 < n) :
    ∀ (fuel : Nat) (l : List Nat), l.length ≤ fuel → (chunksOfAux n fuel l).flatten = l := by
  intro fuel
  induction fuel with
  | zero =>
    intro l hl
    have : l = [] := List.eq_nil_of_length_eq_zero (Nat.le_zero.mp hl)
    simp [this, chunksOfAux]
  | succ m ih =>
    intro l hl
    cases l with
    | nil => simp [chunksOfAux]
    | cons x xs =>
      simp only [chunksOfAux, List.flatten]
      have hdrop : ((x :: xs).drop n).length ≤ m := by
        simp only [List.length_drop]
        have hlen : (x :: xs).length ≤ m + 1 := hl
        omega
      rw [ih _ hdrop]
      exact List.take_append_drop n (x :: xs)

theorem chunksOf_join (n : Nat) (hn : 0 < n) (l : List Nat) : (chunksOf n l).flatten = l :=
  chunksOfAux_join n hn l.length l (Nat.le_refl _)

theorem chunksOfAux_bounded (n : Nat) :
    ∀ (fuel : Nat) (l : List Nat), ∀ c ∈ chunksOfAux n fuel l, c.length ≤ n := by
  intro fuel
  induction fuel with
  | zero =>
    intro l c hc
    cases l <;> simp [chunksOfAux] at hc
  | succ m ih =>
    intro l c hc
    cases l with
    | nil => simp [chunksOfAux] at hc
    | cons x xs =>
      simp only [chunksOfAux, List.mem_cons] at hc
      rcases hc with rfl | hc
      · simp
      · exact ih _ c hc

theorem chunksOf_bounded (n : Nat) (l : List Nat) : ∀ c ∈ chunksOf n l, c.length ≤ n :=
  chunksOfAux_bounded n l.length l

theorem jStrListAux_encode (l : List String) : jStrListAux (l.map Json.str) = some l := by
  induction l with
  | nil => rfl
  | cons x xs ih => simp [jStrListAux, jStr, ih]

theorem jStrDictAux_encode (m : List (String × String)) :
    jStrDictAux (m.map (fun p => (p.1, Json.str p.2))) = some m := by
  induction m with
  | nil => rfl
  | cons x xs ih => simp [jStrDictAux, jStr, ih]

/-- Decoding inverts encoding: no field of a snapshot is lost or altered
by a save/load round trip through the JSON record format. -/
theorem decodeState_encodeState (s : SessionState) : decodeState (encodeState s) = some s := by
  cases s with
  | mk i ts fs si sm sf fh =>
    cases sf with
    | none =>
      simp [decodeState, encodeState, jField, findVal, jStr, jStrOpt, jStrList, jStrDict,
        jStrListAux_encode, jStrDictAux_encode, bind, Option.bind]
    | some f =>
      simp [decodeState, encodeState, jField, findVal, jStr, jStrOpt, jStrList, jStrDict,
        jStrListAux_encode, jStrDictAux_encode, bind, Option.bind]

theorem findVal_append {α : Type} (k : String) (a b : List (String × α)) :
    findVal k (a ++ b) =
      match findVal k a with | some v => some v | none => findVal k b := by
  induction a with
  | nil => simp [findVal]
  | cons x xs ih =>
    obtain ⟨k2, v⟩ := x
    by_cases h : k = k2 <;> simp [findVal, h, ih]

theorem findVal_eq_none_of_not_contains {α : Type} (m : List (String × α)) (k : String)
    (h : (m.map Prod.fst).contains k = false) : findVal k m = none := by
  induction m with
  | nil => rfl
  | cons x xs ih =>
    obtain ⟨k2, v⟩ := x
    simp only [List.map_cons, List.contains_cons, Bool.or_eq_false_iff] at h
    have hne : k ≠ k2 := by simpa using h.1
    simp [findVal, hne, ih h.2]

theorem findVal_filter_self {α : Type} (fs : List (String × α)) (n : String) :
    findVal n (fs.filter (fun pr => pr.1 ≠ n)) = none := by
  induction fs with
  | nil => rfl
  | cons x xs ih =>
    obtain ⟨k, v⟩ := x
    simp only [ne_eq, decide_not] at ih
    by_cases hk : k = n
    · simp [List.filter_cons, hk, ih]
    · simp [List.filter_cons, hk, findVal, Ne.symm hk, ih]

theorem findVal_filter_other {α : Type} (fs : List (String × α)) (n n' : String)
    (h : n' ≠ n) :
    findVal n' (fs.filter (fun pr => pr.1 ≠ n)) = findVal n' fs := by
  induction fs with
  | nil => rfl
  | cons x xs ih =>
    obtain ⟨k, v⟩ := x
    simp only [ne_eq, decide_not] at ih
    by_cases hk : k = n
    · have hnk : n' ≠ k := by rw [hk]; exact h
      simp [List.filter_cons, hk, findVal, hnk, h, ih]
    · by_cases hk2 : n' = k
      · simp [List.filter_cons, hk, findVal, hk2]
      · simp [List.filter_cons, hk, findVal, hk2, ih]

theorem findVal_replaceVal_self {α : Type} (m : List (String × α)) (k : String) (v : α)
    (h : (m.map Prod.fst).contains k = true) : findVal k (replaceVal k v m) = some v := by
  induction m with
  | nil => simp at h
  | cons x xs ih =>
    obtain ⟨k2, v2⟩ := x
    by_cases hk : k2 = k
    · simp [replaceVal, hk, findVal]
    · simp only [List.map_cons, List.contains_cons] at h
      have h2 : (xs.map Prod.fst).contains k = true := by
        rcases Bool.or_eq_true_iff.mp h with h1 | h1
        · exact absurd (beq_iff_eq.mp h1).symm hk
        · exact h1
      simp [replaceVal, hk, findVal, Ne.symm hk, ih h2]

theorem findVal_replaceVal_other {α : Type} (m : List (String × α)) (k k' : String) (v : α)
    (h : k' ≠ k) : findVal k' (replaceVal k v m) = findVal k' m := by
  induction m with
  | nil => rfl
  | cons x xs ih =>
    obtain ⟨k2, v2⟩ := x
    by_cases hk : k2 = k
    · have hk2 : k' ≠ k2 := by rw [hk]; exact h
      simp [replaceVal, hk, findVal, hk2, h, ih]
    · by_cases hk2 : k' = k2
      · simp [replaceVal, hk, findVal, hk2]
      · simp [replaceVal, hk, findVal, hk2, ih]

theorem lookupDir_setDir_self (dirs : Dirs) (d : String) (fs : DirListing) :
    lookupDir (setDir dirs d fs) d = some fs := by
  unfold lookupDir setDir
  by_cases hc : (dirs.map Prod.fst).contains d
  · rw [if_pos hc]
    exact findVal_replaceVal_self dirs d fs hc
  · rw [if_neg hc]
    rw [findVal_append]
    rw [findVal_eq_none_of_not_contains dirs d (Bool.not_eq_true _ |>.mp hc)]
    simp [findVal]

theorem lookupDir_setDir_other (dirs : Dirs) (d d' : String) (fs : DirListing)
    (h : d' ≠ d) : lookupDir (setDir dirs d fs) d' = lookupDir dirs d' := by
  unfold lookupDir setDir
  by_cases hc : (dirs.map Prod.fst).contains d
  · rw [if_pos hc]
    exact findVal_replaceVal_other dirs d d' fs h
  · rw [if_neg hc]
    rw [findVal_append]
    cases hl : findVal d' dirs with
    | some v => rfl
    | none => simp [findVal, h]

theorem lookupFile_writeFile_self (dirs : Dirs) (d n : String) (c : FileContent) :
    lookupFile (writeFile dirs d n c) d n = some c := by
  unfold lookupFile writeFile
  rw [lookupDir_setDir_self]
  rw [Option.some_bind']
  rw [findVal_append, findVal_filter_self]
  simp [findVal]

theorem lookupFile_removeFile_self (dirs : Dirs) (d n : String) :
    lookupFile (removeFile dirs d n) d n = none := by
  unfold removeFile
  cases hl : lookupDir dirs d with
  | none => simp [lookupFile, hl]
  | some fs =>
    unfold lookupFile
    rw [lookupDir_setDir_self]
    rw [Option.some_bind']
    exact findVal_filter_self fs n

theorem lookupFile_removeFile_other (dirs : Dirs) (d n n' : String) (h : n' ≠ n) :
    lookupFile (removeFile dirs d n) d n' = lookupFile dirs d n' := by
  unfold removeFile
  cases hl : lookupDir dirs d with
  | none => rfl
  | some fs =>
    unfold lookupFile
    rw [lookupDir_setDir_self, hl]
    rw [Option.some_bind']
    exact findVal_filter_other fs n n' h

/-- After removing the snapshot files of a whole list of states, every
one of their files is gone from the directory. -/
theorem lookupFile_removeAll (d : String) (olds : List SessionState) :
    ∀ (dirs : Dirs) (o : SessionState), o ∈ olds →
    lookupFile
      (olds.foldl (fun ds old => removeFile ds d ("state_" ++ old.id ++ ".json")) dirs) d
      ("state_" ++ o.id ++ ".json") = none := by
  induction olds with
  | nil =>
    intro dirs o ho
    simp at ho
  | cons x xs ih =>
    intro dirs o ho
    simp only [List.foldl_cons]
    rcases List.mem_cons.mp ho with rfl | hmem
    · by_cases hx : ∃ y ∈ xs, ("state_" ++ y.id ++ ".json" : String) = "state_" ++ o.id ++ ".json"
      · rcases hx with ⟨y, hy, hfy⟩
        have := ih (removeFile dirs d ("state_" ++ o.id ++ ".json")) y hy
        rw [hfy] at this
        exact this
      · push_neg at hx
        have base : lookupFile (removeFile dirs d ("state_" ++ o.id ++ ".json")) d
            ("state_" ++ o.id ++ ".json") = none := lookupFile_removeFile_self dirs d _
        clear ih ho
        revert base
        generalize removeFile dirs d ("state_" ++ o.id ++ ".json") = ds0
        induction xs generalizing ds0 with
        | nil =>
          intro h
          simpa using h
        | cons z zs ihz =>
          intro h
          simp only [List.foldl_cons]
          have hz : ("state_" ++ o.id ++ ".json" : String) ≠ "state_" ++ z.id ++ ".json" := by
            intro he
            exact hx z (List.mem_cons_self z zs) he.symm
          apply ihz
          · intro y hy
            exact hx y (List.mem_cons_of_mem z hy)
          · rw [lookupFile_removeFile_other _ _ _ _ hz]
            exact h
    · exact ih _ o hmem

/-- Any path appearing in the result of the check_stale_status fold was
either already in the accumulator or passed the text-sniffer test. -/
theorem stale_fold_keys (hashHex : List Nat → String) (disk : Disk) (itf : String → Bool)
    (stored : List (String × String)) :
    ∀ (ks : List String) (acc : List (String × String)) (p : String),
    p ∈ (ks.foldl (fun stale_files file_path =>
      if itf file_path then
        let current_hash := calculate_file_hash hashHex disk file_path
        match findVal file_path stored with
        | none => stale_files
        | some stored_hash =>
          if current_hash = HASH_MISSING_SENTINEL then stale_files ++ [(file_path, "missing")]
          else if current_hash = HASH_ERROR_SENTINEL then stale_files ++ [(file_path, "error")]
          else if current_hash ≠ stored_hash then stale_files ++ [(file_path, "modified")]
          else stale_files
      else stale_files) acc).map Prod.fst →
    p ∈ acc.map Prod.fst ∨ itf p = true := by
  intro ks
  induction ks with
  | nil =>
    intro acc p hp
    exact Or.inl hp
  | cons k ks ih =>
    intro acc p hp
    simp only [List.foldl_cons] at hp
    rcases ih _ p hp with hacc | hit
    · by_cases hk : itf k = true
      · cases hlk : findVal k stored with
        | none =>
          simp only [hk, eq_self_iff_true, if_true, hlk] at hacc
          exact Or.inl hacc
        | some sh =>
          simp only [hk, eq_self_iff_true, if_true, hlk] at hacc
          by_cases h1 : calculate_file_hash hashHex disk k = HASH_MISSING_SENTINEL
          · rw [if_pos h1] at hacc
            simp only [List.map_append, List.mem_append, List.map_cons, List.map_nil,
              List.mem_singleton] at hacc
            rcases hacc with h | h
            · exact Or.inl h
            · subst h
              exact Or.inr hk
          · rw [if_neg h1] at hacc
            by_cases h2 : calculate_file_hash hashHex disk k = HASH_ERROR_SENTINEL
            · rw [if_pos h2] at hacc
              simp only [List.map_append, List.mem_append, List.map_cons, List.map_nil,
                List.mem_singleton] at hacc
              rcases hacc with h | h
              · exact Or.inl h
              · subst h
                exact Or.inr hk
            · rw [if_neg h2] at hacc
              by_cases h3 : calculate_file_hash hashHex disk k ≠ sh
              · rw [if_pos h3] at hacc
                simp only [List.map_append, List.mem_append, List.map_cons, List.map_nil,
                  List.mem_singleton] at hacc
                rcases hacc with h | h
                · exact Or.inl h
                · subst h
                  exact Or.inr hk
              · rw [if_neg h3] at hacc
                exact Or.inl hacc
      · simp only [Bool.not_eq_true] at hk
        simp only [hk, Bool.false_eq_true, if_false] at hacc
        exact Or.inl hacc
    · exact Or.inr hit

theorem load_state_guard_false (w : World) (i : Int)
    (h : 0 ≤ i ∧ i < (w.mgr.history.length : Int)) :
    ((load_state w i).2).mgr.is_loading_state = false := by
  unfold load_state
  rw [if_pos h]
  split <;> rfl

theorem pySliceIdx_of_nonneg (k : Int) (len : Nat) (h0 : 0 ≤ k) (hle : k ≤ (len : Int)) :
    pySliceIdx k len = k.toNat := by
  unfold pySliceIdx
  rw [if_neg (by omega)]
  omega

/-- The unfolded successful-capture case of create_new_state: guard off,
not a duplicate, and the snapshot write succeeded. -/
theorem create_new_state_append (hashHex : List Nat → String) (itf : String → Bool)
    (disk : Disk) (w : World) (newId newTimestamp : String)
    (current_files selected_items : List String) (selection_mode : String)
    (selected_file : Option String) (saveOk : Bool)
    (hguard : ¬(w.mgr.is_loading_state = true ∨ w.mgr.history_dir = ""))
    (hnodup : ¬(0 ≤ w.mgr.history_index ∧
      w.mgr.history_index < (w.mgr.history.length : Int) ∧
      comparableEq
        (capturedState hashHex itf disk newId newTimestamp current_files selected_items
          selection_mode selected_file)
        (w.mgr.history.getD w.mgr.history_index.toNat default) = true))
    (hsave : saveOk = true) :
    create_new_state hashHex itf disk w newId newTimestamp current_files selected_items
      selection_mode selected_file saveOk =
    { mgr := { w.mgr with
        history := truncatedHistory w ++
          [capturedState hashHex itf disk newId newTimestamp current_files selected_items
            selection_mode selected_file]
        history_index := ((truncatedHistory w ++
          [capturedState hashHex itf disk newId newTimestamp current_files selected_items
            selection_mode selected_file]).length : Int) - 1 },
      dirs := (discardedStates w).foldl
        (fun ds old => removeFile ds w.mgr.history_dir ("state_" ++ old.id ++ ".json"))
        (writeFile w.dirs w.mgr.history_dir ("state_" ++ newId ++ ".json")
          (.json (encodeState
            (capturedState hashHex itf disk newId newTimestamp current_files selected_items
              selection_mode selected_file)))) } := by
  unfold create_new_state
  rw [if_neg hguard, if_neg hnodup, if_neg (by simp [hsave])]

/-- Removing a list of snapshot files never touches a file with a
different name. -/
theorem lookupFile_removeAll_other (d n : String) (olds : List SessionState)
    (hne : ∀ o ∈ olds, ("state_" ++ o.id ++ ".json" : String) ≠ n) :
    ∀ (dirs : Dirs),
    lookupFile
      (olds.foldl (fun ds old => removeFile ds d ("state_" ++ old.id ++ ".json")) dirs) d n =
    lookupFile dirs d n := by
  induction olds with
  | nil =>
    intro dirs
    rfl
  | cons x xs ih =>
    intro dirs
    simp only [List.foldl_cons]
    rw [ih (fun o ho => hne o (List.mem_cons_of_mem x ho))]
    exact lookupFile_removeFile_other dirs d _ n
      (fun he => hne x (List.mem_cons_self x xs) he.symm)

theorem contains_of_findVal_some {α : Type} (m : List (String × α)) (k : String) (v : α)
    (h : findVal k m = some v) : (m.map Prod.fst).contains k = true := by
  induction m with
  | nil => simp [findVal] at h
  | cons x xs ih =>
    obtain ⟨k2, v2⟩ := x
    by_cases hk : k = k2
    · simp [hk]
    · simp only [findVal, if_neg hk] at h
      have hc := ih h
      simp only [List.map_cons, List.contains_cons, hc, Bool.or_true]

theorem lookupDir_mkdirDirs_preserve (dirs : Dirs) (d e : String) (fs : DirListing)
    (h : lookupDir dirs d = some fs) : lookupDir (mkdirDirs dirs e) d = some fs := by
  unfold mkdirDirs
  by_cases hc : (dirs.map Prod.fst).contains e
  · rw [if_pos hc]
    exact h
  · rw [if_neg hc]
    unfold lookupDir at h ⊢
    rw [findVal_append, h]

theorem load_state_success (w : World) (i : Int)
    (h : 0 ≤ i ∧ i < (w.mgr.history.length : Int)) (j : Json)
    (hf : lookupFile w.dirs w.mgr.history_dir
      ("state_" ++ (w.mgr.history.getD i.toNat default).id ++ ".json") = some (.json j)) :
    (load_state w i).1 = some j := by
  unfold load_state
  rw [if_pos h, hf]

/-- Every state discarded by a capture was in the history before it. -/
theorem mem_history_of_mem_discarded (w : World) (o : SessionState)
    (ho : o ∈ discardedStates w) : o ∈ w.mgr.history := by
  unfold discardedStates at ho
  split at ho
  · exact List.mem_of_mem_drop ho
  · simp at ho

theorem sampleHash_hex : ∀ b, isHexDigest64 (sampleHash b) = true := fun _ => by
  show isHexDigest64
    "0000000000000000000000000000000000000000000000000000000000000000" = true
  decide

/-! ## The claims -/

/-- C1.  The claim says check_stale_status, as invoked by pollStaleness
(with is_text_file as the sniffer), reports a deleted tracked path as
"missing" and an unreadable one as "error".  The code does not: the
classification of each path is guarded by is_text_file, which returns
false for any path that cannot be opened, so a deleted or unreadable
file is silently omitted from the result instead.  At the concrete
failing input (a snapshot tracking /a.txt, with /a.txt deleted from
disk), the result is empty rather than mapping /a.txt to "missing". -/
theorem claim_C1_missing_file_not_reported :
    check_stale_status sampleHash diskAbsent (is_text_file diskAbsent) (some sdC1) = [] := by
  rfl

/-- C2.  When the user has gone back (history_index strictly before the
tail) and captures a state that differs from the one at history_index,
every entry strictly after history_index is removed from the in-memory
list, each removed entry's snapshot file is deleted from the store, the
new state is appended, and history_index moves to the new tail
len(history) - 1. -/
theorem claim_C2_branch_discard (hashHex : List Nat → String) (itf : String → Bool)
    (disk : Disk) (w : World) (newId newTimestamp : String)
    (current_files selected_items : List String) (selection_mode : String)
    (selected_file : Option String) (saveOk : Bool)
    (hguard : ¬(w.mgr.is_loading_state = true ∨ w.mgr.history_dir = ""))
    (h0 : 0 ≤ w.mgr.history_index)
    (hcut : w.mgr.history_index < (w.mgr.history.length : Int) - 1)
    (hnodup : comparableEq
      (capturedState hashHex itf disk newId newTimestamp current_files selected_items
        selection_mode selected_file)
      (w.mgr.history.getD w.mgr.history_index.toNat default) = false)
    (hsave : saveOk = true) :
    (create_new_state hashHex itf disk w newId newTimestamp current_files selected_items
        selection_mode selected_file saveOk).mgr.history =
      w.mgr.history.take (w.mgr.history_index + 1).toNat ++
        [capturedState hashHex itf disk newId newTimestamp current_files selected_items
          selection_mode selected_file] ∧
    (create_new_state hashHex itf disk w newId newTimestamp current_files selected_items
        selection_mode selected_file saveOk).mgr.history_index =
      (((create_new_state hashHex itf disk w newId newTimestamp current_files selected_items
        selection_mode selected_file saveOk).mgr.history).length : Int) - 1 ∧
    ∀ old ∈ w.mgr.history.drop (w.mgr.history_index + 1).toNat,
      lookupFile (create_new_state hashHex itf disk w newId newTimestamp current_files
          selected_items selection_mode selected_file saveOk).dirs
        w.mgr.history_dir ("state_" ++ old.id ++ ".json") = none := by
  have hnodup2 : ¬(0 ≤ w.mgr.history_index ∧
      w.mgr.history_index < (w.mgr.history.length : Int) ∧
      comparableEq
        (capturedState hashHex itf disk newId newTimestamp current_files selected_items
          selection_mode selected_file)
        (w.mgr.history.getD w.mgr.history_index.toNat default) = true) := by
    rintro ⟨-, -, hc⟩
    rw [hnodup] at hc
    exact Bool.false_ne_true hc
  have happ := create_new_state_append hashHex itf disk w newId newTimestamp current_files
    selected_items selection_mode selected_file saveOk hguard hnodup2 hsave
  have htr : truncatedHistory w = w.mgr.history.take (w.mgr.history_index + 1).toNat := by
    unfold truncatedHistory
    rw [if_pos hcut, pySliceIdx_of_nonneg _ _ (by omega) (by omega)]
  have hdisc : discardedStates w = w.mgr.history.drop (w.mgr.history_index + 1).toNat := by
    unfold discardedStates
    rw [if_pos hcut, pySliceIdx_of_nonneg _ _ (by omega) (by omega)]
  refine ⟨?_, ?_, ?_⟩
  · rw [happ, htr]
  · rw [happ]
  · intro old hold
    rw [happ, hdisc]
    exact lookupFile_removeAll w.mgr.history_dir _ _ old hold

theorem claim_C2_witness :
    (create_new_state sampleHash (is_text_file diskAbsent) diskAbsent wTwo
        "new-id" "t3" ["/c.txt"] [] "All Files" none true).mgr.history =
      wTwo.mgr.history.take (wTwo.mgr.history_index + 1).toNat ++
        [capturedState sampleHash (is_text_file diskAbsent) diskAbsent
          "new-id" "t3" ["/c.txt"] [] "All Files" none] ∧
    (create_new_state sampleHash (is_text_file diskAbsent) diskAbsent wTwo
        "new-id" "t3" ["/c.txt"] [] "All Files" none true).mgr.history_index =
      (((create_new_state sampleHash (is_text_file diskAbsent) diskAbsent wTwo
        "new-id" "t3" ["/c.txt"] [] "All Files" none true).mgr.history).length : Int) - 1 ∧
    ∀ old ∈ wTwo.mgr.history.drop (wTwo.mgr.history_index + 1).toNat,
      lookupFile (create_new_state sampleHash (is_text_file diskAbsent) diskAbsent wTwo
          "new-id" "t3" ["/c.txt"] [] "All Files" none true).dirs
        wTwo.mgr.history_dir ("state_" ++ old.id ++ ".json") = none :=
  claim_C2_branch_discard sampleHash (is_text_file diskAbsent) diskAbsent wTwo
    "new-id" "t3" ["/c.txt"] [] "All Files" none true
    (by decide) (by decide) (by decide) (by decide) rfl

/-- C3.  A capture whose comparable fields (files, selected_items,
selection_mode, selected_file, file_hashes — id and timestamp excluded)
equal those of the state at the current history index is not appended:
create_new_state returns before writing anything, so the history list,
the index and the store are all unchanged. -/
theorem claim_C3_duplicate_not_appended (hashHex : List Nat → String) (itf : String → Bool)
    (disk : Disk) (w : World) (newId newTimestamp : String)
    (current_files selected_items : List String) (selection_mode : String)
    (selected_file : Option String) (saveOk : Bool)
    (hguard : ¬(w.mgr.is_loading_state = true ∨ w.mgr.history_dir = ""))
    (hdup : 0 ≤ w.mgr.history_index ∧
      w.mgr.history_index < (w.mgr.history.length : Int) ∧
      comparableEq
        (capturedState hashHex itf disk newId newTimestamp current_files selected_items
          selection_mode selected_file)
        (w.mgr.history.getD w.mgr.history_index.toNat default) = true) :
    create_new_state hashHex itf disk w newId newTimestamp current_files selected_items
      selection_mode selected_file saveOk = w := by
  unfold create_new_state
  rw [if_neg hguard, if_pos hdup]

theorem claim_C3_witness :
    create_new_state sampleHash (is_text_file diskAbsent) diskAbsent wOne
      "new-id" "t1" [] [] "All Files" none true = wOne :=
  claim_C3_duplicate_not_appended sampleHash (is_text_file diskAbsent) diskAbsent wOne
    "new-id" "t1" [] [] "All Files" none true
    (by decide)
    (by refine ⟨by decide, by decide, ?_⟩; decide)

/-- C5.  A successful capture writes the serialized state record to the
store, and loading it back at the new history position returns exactly
that record; decoding the record recovers every field — id, timestamp,
files, selected_items, selection_mode, selected_file, file_hashes — of
the captured state. -/
theorem claim_C5_roundtrip (hashHex : List Nat → String) (itf : String → Bool)
    (disk : Disk) (w : World) (newId newTimestamp : String)
    (current_files selected_items : List String) (selection_mode : String)
    (selected_file : Option String) (saveOk : Bool)
    (hguard : ¬(w.mgr.is_loading_state = true ∨ w.mgr.history_dir = ""))
    (hnodup : ¬(0 ≤ w.mgr.history_index ∧
      w.mgr.history_index < (w.mgr.history.length : Int) ∧
      comparableEq
        (capturedState hashHex itf disk newId newTimestamp current_files selected_items
          selection_mode selected_file)
        (w.mgr.history.getD w.mgr.history_index.toNat default) = true))
    (hsave : saveOk = true)
    (hfresh : ∀ old ∈ w.mgr.history,
      ("state_" ++ old.id ++ ".json" : String) ≠ "state_" ++ newId ++ ".json") :
    (load_state
        (create_new_state hashHex itf disk w newId newTimestamp current_files selected_items
          selection_mode selected_file saveOk)
        ((create_new_state hashHex itf disk w newId newTimestamp current_files selected_items
          selection_mode selected_file saveOk).mgr.history_index)).1 =
      some (encodeState (capturedState hashHex itf disk newId newTimestamp current_files
        selected_items selection_mode selected_file)) ∧
    decodeState (encodeState (capturedState hashHex itf disk newId newTimestamp current_files
        selected_items selection_mode selected_file)) =
      some (capturedState hashHex itf disk newId newTimestamp current_files selected_items
        selection_mode selected_file) := by
  have happ := create_new_state_append hashHex itf disk w newId newTimestamp current_files
    selected_items selection_mode selected_file saveOk hguard hnodup hsave
  refine ⟨?_, decodeState_encodeState _⟩
  rw [happ]
  have hlen1 : ((truncatedHistory w ++
      [capturedState hashHex itf disk newId newTimestamp current_files selected_items
        selection_mode selected_file]).length : Int) - 1 =
      ((truncatedHistory w).length : Int) := by
    simp [List.length_append]
  apply load_state_success
  · constructor
    · show (0 : Int) ≤ ((truncatedHistory w ++ _).length : Int) - 1
      simp [List.length_append]
    · show ((truncatedHistory w ++ _).length : Int) - 1 < _
      simp [List.length_append]
  · show lookupFile _ w.mgr.history_dir _ = _
    have hgetD : (truncatedHistory w ++
        [capturedState hashHex itf disk newId newTimestamp current_files selected_items
          selection_mode selected_file]).getD
        ((((truncatedHistory w ++
          [capturedState hashHex itf disk newId newTimestamp current_files selected_items
            selection_mode selected_file]).length : Int) - 1).toNat) default =
        capturedState hashHex itf disk newId newTimestamp current_files selected_items
          selection_mode selected_file := by
      have h2 : ((((truncatedHistory w ++
          [capturedState hashHex itf disk newId newTimestamp current_files selected_items
            selection_mode selected_file]).length : Int) - 1).toNat) =
          (truncatedHistory w).length := by
        simp [List.length_append]
      rw [h2, List.getD_eq_getElem?_getD, List.getElem?_concat_length]
      rfl
    rw [hgetD]
    have hne : ∀ o ∈ discardedStates w,
        ("state_" ++ o.id ++ ".json" : String) ≠
        "state_" ++ (capturedState hashHex itf disk newId newTimestamp current_files
          selected_items selection_mode selected_file).id ++ ".json" := by
      intro o ho
      exact hfresh o (mem_history_of_mem_discarded w o ho)
    rw [lookupFile_removeAll_other _ _ _ hne]
    exact lookupFile_writeFile_self _ _ _ _

theorem claim_C5_witness :
    (load_state
        (create_new_state sampleHash (is_text_file diskAbsent) diskAbsent wOne
          "new-id" "t1" ["/c.txt"] [] "All Files" none true)
        ((create_new_state sampleHash (is_text_file diskAbsent) diskAbsent wOne
          "new-id" "t1" ["/c.txt"] [] "All Files" none true).mgr.history_index)).1 =
      some (encodeState (capturedState sampleHash (is_text_file diskAbsent) diskAbsent
        "new-id" "t1" ["/c.txt"] [] "All Files" none)) ∧
    decodeState (encodeState (capturedState sampleHash (is_text_file diskAbsent) diskAbsent
        "new-id" "t1" ["/c.txt"] [] "All Files" none)) =
      some (capturedState sampleHash (is_text_file diskAbsent) diskAbsent
        "new-id" "t1" ["/c.txt"] [] "All Files" none) :=
  claim_C5_roundtrip sampleHash (is_text_file diskAbsent) diskAbsent wOne
    "new-id" "t1" ["/c.txt"] [] "All Files" none true
    (by decide) (by decide) rfl (by decide)

/-- C6.  When load_state is called with a valid index whose snapshot
file is missing from the store or unparseable, it does not raise: it
returns None, removes the offending reference from the history list,
and re-clamps history_index so it stays within the bounds of the
shortened list (given that the index was in bounds before, as the
invariant guarantees). -/
theorem claim_C6_load_failure (w : World) (i : Int)
    (h0 : 0 ≤ i) (h1 : i < (w.mgr.history.length : Int))
    (hidx : -1 ≤ w.mgr.history_index)
    (hfail : lookupFile w.dirs w.mgr.history_dir
        ("state_" ++ (w.mgr.history.getD i.toNat default).id ++ ".json") = none ∨
      lookupFile w.dirs w.mgr.history_dir
        ("state_" ++ (w.mgr.history.getD i.toNat default).id ++ ".json") =
        some FileContent.corrupt) :
    (load_state w i).1 = none ∧
    ((load_state w i).2).mgr.history = w.mgr.history.eraseIdx i.toNat ∧
    ((load_state w i).2).mgr.history_index =
      min w.mgr.history_index (((w.mgr.history.eraseIdx i.toNat).length : Int) - 1) ∧
    -1 ≤ ((load_state w i).2).mgr.history_index ∧
    ((load_state w i).2).mgr.history_index <
      (((load_state w i).2).mgr.history.length : Int) := by
  have hlt : i.toNat < w.mgr.history.length := by omega
  have hlen : (w.mgr.history.eraseIdx i.toNat).length = w.mgr.history.length - 1 := by
    rw [List.length_eraseIdx]
    simp [hlt]
  unfold load_state
  rw [if_pos ⟨h0, h1⟩]
  rcases hfail with hf | hf
  · rw [hf]
    refine ⟨rfl, rfl, rfl, ?_, ?_⟩
    · show -1 ≤ min w.mgr.history_index
        (((w.mgr.history.eraseIdx i.toNat).length : Int) - 1)
      omega
    · show min w.mgr.history_index (((w.mgr.history.eraseIdx i.toNat).length : Int) - 1) <
        ((w.mgr.history.eraseIdx i.toNat).length : Int)
      omega
  · rw [hf]
    refine ⟨rfl, rfl, rfl, ?_, ?_⟩
    · show -1 ≤ min w.mgr.history_index
        (((w.mgr.history.eraseIdx i.toNat).length : Int) - 1)
      omega
    · show min w.mgr.history_index (((w.mgr.history.eraseIdx i.toNat).length : Int) - 1) <
        ((w.mgr.history.eraseIdx i.toNat).length : Int)
      omega

theorem claim_C6_witness :
    (load_state wOne 0).1 = none ∧
    ((load_state wOne 0).2).mgr.history = wOne.mgr.history.eraseIdx (0 : Int).toNat ∧
    ((load_state wOne 0).2).mgr.history_index =
      min wOne.mgr.history_index
        (((wOne.mgr.history.eraseIdx (0 : Int).toNat).length : Int) - 1) ∧
    -1 ≤ ((load_state wOne 0).2).mgr.history_index ∧
    ((load_state wOne 0).2).mgr.history_index <
      (((load_state wOne 0).2).mgr.history.length : Int) :=
  claim_C6_load_failure wOne 0 (by decide) (by decide) (by decide) (Or.inl rfl)

/-- C7.  calculate_file_hash is total (never raises): it returns the
digest of the file's full byte content — computed by streaming the file
in chunks of at most 4096 bytes whose concatenation is the whole content
— when the file is readable, the MISSING sentinel when the file is
absent, and the READ_ERROR sentinel on any other I/O failure; and when
the abstract hasher produces 64-character hex digests, so does the
function in the readable case. -/
theorem claim_C7_hasher_total (hashHex : List Nat → String)
    (hHex : ∀ b, isHexDigest64 (hashHex b) = true) (disk : Disk) (p : String) :
    (∃ bytes, disk p = .content bytes ∧
       calculate_file_hash hashHex disk p = hashHex bytes ∧
       (chunksOf 4096 bytes).flatten = bytes ∧
       (∀ c ∈ chunksOf 4096 bytes, c.length ≤ 4096) ∧
       isHexDigest64 (calculate_file_hash hashHex disk p) = true)
    ∨ (disk p = .absent ∧ calculate_file_hash hashHex disk p = HASH_MISSING_SENTINEL)
    ∨ (disk p = .unreadable ∧ calculate_file_hash hashHex disk p = HASH_ERROR_SENTINEL) := by
  cases hd : disk p with
  | absent =>
    right; left
    exact ⟨rfl, by simp [calculate_file_hash, hd]⟩
  | unreadable =>
    right; right
    exact ⟨rfl, by simp [calculate_file_hash, hd]⟩
  | content bytes =>
    left
    refine ⟨bytes, rfl, ?_, chunksOf_join 4096 (by norm_num) bytes, chunksOf_bounded 4096 bytes, ?_⟩
    · simp [calculate_file_hash, hd, chunksOf_join 4096 (by norm_num) bytes]
    · simp [calculate_file_hash, hd, hHex]

theorem claim_C7_witness :
    calculate_file_hash sampleHash diskAbsent "/gone.txt" = HASH_MISSING_SENTINEL := by
  have h := claim_C7_hasher_total sampleHash sampleHash_hex diskAbsent "/gone.txt"
  rcases h with ⟨b, hb, _⟩ | ⟨_, hres⟩ | ⟨habs, _⟩
  · simp [diskAbsent] at hb
  · exact hres
  · simp [diskAbsent] at habs

/-- C9.  create_new_state is a complete no-op (history manager and store
both unchanged) while the loading guard is set or while history is
disabled because no storage directory exists; and load_state leaves the
loading guard false on every exit path of a navigation read: after any
in-range load (whatever the outcome: success, missing snapshot, corrupt
snapshot) the guard is false, and an out-of-range call returns before
touching the guard, so the guard is false after every call when it was
false before. -/
theorem claim_C9_guard_noop (hashHex : List Nat → String) (itf : String → Bool)
    (disk : Disk) (w : World) :
    (w.mgr.is_loading_state = true ∨ w.mgr.history_dir = "" →
      ∀ (newId newTimestamp : String) (current_files selected_items : List String)
        (selection_mode : String) (selected_file : Option String) (saveOk : Bool),
      create_new_state hashHex itf disk w newId newTimestamp current_files selected_items
        selection_mode selected_file saveOk = w)
    ∧ (∀ i : Int, 0 ≤ i → i < (w.mgr.history.length : Int) →
        ((load_state w i).2).mgr.is_loading_state = false)
    ∧ (w.mgr.is_loading_state = false →
        ∀ i : Int, ((load_state w i).2).mgr.is_loading_state = false) := by
  refine ⟨?_, ?_, ?_⟩
  · intro h newId newTimestamp current_files selected_items selection_mode selected_file saveOk
    unfold create_new_state
    rw [if_pos h]
  · intro i h0 hl
    exact load_state_guard_false w i ⟨h0, hl⟩
  · intro hl i
    by_cases hr : 0 ≤ i ∧ i < (w.mgr.history.length : Int)
    · exact load_state_guard_false w i hr
    · unfold load_state
      rw [if_neg hr]
      exact hl

theorem claim_C9_witness :
    ((⟨⟨"/h", "", [], -1, true⟩, []⟩ : World).mgr.is_loading_state = true ∨
        (⟨⟨"/h", "", [], -1, true⟩, []⟩ : World).mgr.history_dir = "" →
      ∀ (newId newTimestamp : String) (current_files selected_items : List String)
        (selection_mode : String) (selected_file : Option String) (saveOk : Bool),
      create_new_state sampleHash (is_text_file diskAbsent) diskAbsent
        ⟨⟨"/h", "", [], -1, true⟩, []⟩ newId newTimestamp current_files selected_items
        selection_mode selected_file saveOk = ⟨⟨"/h", "", [], -1, true⟩, []⟩)
    ∧ (∀ i : Int, 0 ≤ i →
        i < (((⟨⟨"/h", "", [], -1, true⟩, []⟩ : World)).mgr.history.length : Int) →
        ((load_state ⟨⟨"/h", "", [], -1, true⟩, []⟩ i).2).mgr.is_loading_state = false)
    ∧ ((⟨⟨"/h", "", [], -1, true⟩, []⟩ : World).mgr.is_loading_state = false →
        ∀ i : Int,
        ((load_state ⟨⟨"/h", "", [], -1, true⟩, []⟩ i).2).mgr.is_loading_state = false) :=
  claim_C9_guard_noop sampleHash (is_text_file diskAbsent) diskAbsent
    ⟨⟨"/h", "", [], -1, true⟩, []⟩

/-- C10.  A path stored in a snapshot's file_hashes map appears in the
result of check_stale_status only if is_text_file accepts it at check
time; and is_text_file returns false for every path that is absent or
cannot be opened.  Hence deleted or unreadable files are silently
omitted rather than classified. -/
theorem claim_C10_text_guard (hashHex : List Nat → String) (disk : Disk)
    (sd : SessionState) (p : String) :
    (p ∈ (check_stale_status hashHex disk (is_text_file disk) (some sd)).map Prod.fst →
      is_text_file disk p = true)
    ∧ (disk p = .absent ∨ disk p = .unreadable → is_text_file disk p = false) := by
  constructor
  · intro hp
    have := stale_fold_keys hashHex disk (is_text_file disk) sd.file_hashes
      (sd.file_hashes.map Prod.fst) [] p (by simpa [check_stale_status] using hp)
    rcases this with h | h
    · simp at h
    · exact h
  · intro hp
    rcases hp with h | h <;> simp [is_text_file, h]

theorem claim_C10_witness :
    ("/a.txt" ∈ (check_stale_status sampleHash diskAbsent (is_text_file diskAbsent)
        (some sdC1)).map Prod.fst →
      is_text_file diskAbsent "/a.txt" = true)
    ∧ (diskAbsent "/a.txt" = .absent ∨ diskAbsent "/a.txt" = .unreadable →
      is_text_file diskAbsent "/a.txt" = false) :=
  claim_C10_text_guard sampleHash diskAbsent sdC1 "/a.txt"

theorem Inv_mk (dir bp : String) (hist : List SessionState) (idx : Int) (ld : Bool)
    (h1 : -1 ≤ idx) (h2 : idx < (hist.length : Int)) (h3 : idx = -1 ↔ hist.length = 0) :
    Inv ⟨dir, bp, hist, idx, ld⟩ := ⟨h1, h2, h3⟩

theorem Inv_create (hashHex : List Nat → String) (itf : String → Bool) (disk : Disk)
    (w : World) (newId newTimestamp : String) (current_files selected_items : List String)
    (selection_mode : String) (selected_file : Option String) (saveOk : Bool)
    (h : Inv w.mgr) :
    Inv (create_new_state hashHex itf disk w newId newTimestamp current_files
      selected_items selection_mode selected_file saveOk).mgr := by
  unfold create_new_state
  split
  · exact h
  · split
    · exact h
    · split
      · exact h
      · exact Inv_mk _ _ _ _ _ (by omega) (by omega) (by omega)

theorem Inv_load (w : World) (i : Int) (h : Inv w.mgr) : Inv ((load_state w i).2).mgr := by
  obtain ⟨ha, hb, hc⟩ := h
  unfold load_state
  split
  · next hr =>
    obtain ⟨h0, h1⟩ := hr
    have hlt : i.toNat < w.mgr.history.length := by omega
    have hlen : (w.mgr.history.eraseIdx i.toNat).length = w.mgr.history.length - 1 := by
      rw [List.length_eraseIdx]
      simp [hlt]
    split
    · exact Inv_mk _ _ _ _ _ (by omega) (by omega) (by omega)
    · exact Inv_mk _ _ _ _ _ (by omega) (by omega) (by omega)
    · exact Inv_mk _ _ _ _ _ (by omega) (by omega) (by omega)
  · exact ⟨ha, hb, hc⟩

theorem Inv_relocate (env : Env) (w : World) (new_base_path : String) :
    Inv (change_history_directory env w new_base_path).mgr :=
  Inv_mk _ _ _ _ _ (by omega) (by simp) (by simp)

/-- C4.  Along every sequence of create_new_state, load_state and
change_history_directory operations starting from the initial empty
history, the invariant -1 ≤ history_index < len(history) holds, with
history_index = -1 exactly when the history is empty. -/
theorem claim_C4_invariant (w : World) (h : Reachable w) : Inv w.mgr := by
  induction h with
  | init history_dir history_base_path dirs =>
    exact Inv_mk _ _ _ _ _ (by omega) (by simp) (by simp)
  | capture w hashHex itf disk newId newTimestamp current_files selected_items
      selection_mode selected_file saveOk hw ih =>
    exact Inv_create hashHex itf disk w newId newTimestamp current_files selected_items
      selection_mode selected_file saveOk ih
  | load w i hw ih => exact Inv_load w i ih
  | relocate w env new_base_path hw ih => exact Inv_relocate env w new_base_path

theorem claim_C4_witness : Inv (⟨"/h", "", [], -1, false⟩ : HistoryManager) :=
  claim_C4_invariant ⟨⟨"/h", "", [], -1, false⟩, []⟩ (Reachable.init "/h" "" [])

theorem specFalsyOf_some (s : String) : specFalsyOf (some s) = (s == "") := rfl

/-- C8.  After relocating storage, the in-memory history is empty (count
0, index -1); the old history directory (when it existed) retains none
of the files matching the store's snapshot naming convention
(state_*.json), while its files not matching the convention survive
untouched. -/
theorem claim_C8_relocate (env : Env) (w : World) (new_base_path : String)
    (fs0 : DirListing)
    (hdir : w.mgr.history_dir ≠ "")
    (hfs : lookupDir w.dirs w.mgr.history_dir = some fs0) :
    (change_history_directory env w new_base_path).mgr.history = [] ∧
    (change_history_directory env w new_base_path).mgr.history_index = -1 ∧
    ∃ fs1, lookupDir (change_history_directory env w new_base_path).dirs
        w.mgr.history_dir = some fs1 ∧
      (∀ pr ∈ fs1, isStateFile pr.1 = false ∧ pr ∈ fs0) ∧
      (∀ pr ∈ fs0, isStateFile pr.1 = false → pr ∈ fs1) := by
  have hbeq : (w.mgr.history_dir == "") = false := by
    simpa using hdir
  have hcd : cleanupDirOf w (some w.mgr.history_dir) = w.mgr.history_dir := by
    unfold cleanupDirOf
    rw [specFalsyOf_some, hbeq]
    simp
  have hclean : cleanup_history_files w (some w.mgr.history_dir) =
      setDir w.dirs w.mgr.history_dir (fs0.filter (fun pr => !(isStateFile pr.1))) := by
    unfold cleanup_history_files
    rw [hcd, if_neg hdir, hfs]
    rw [specFalsyOf_some, hbeq]
    simp
  have h1 : lookupDir (cleanup_history_files w (some w.mgr.history_dir))
      w.mgr.history_dir = some (fs0.filter (fun pr => !(isStateFile pr.1))) := by
    rw [hclean]
    exact lookupDir_setDir_self _ _ _
  refine ⟨rfl, rfl, fs0.filter (fun pr => !(isStateFile pr.1)), ?_, ?_, ?_⟩
  · show lookupDir (if (initialize_history_directory env new_base_path).2 ≠ ""
        then mkdirDirs (cleanup_history_files w (some w.mgr.history_dir))
          (initialize_history_directory env new_base_path).2
        else cleanup_history_files w (some w.mgr.history_dir)) w.mgr.history_dir =
      some (fs0.filter (fun pr => !(isStateFile pr.1)))
    by_cases hnd : (initialize_history_directory env new_base_path).2 ≠ ""
    · rw [if_pos hnd]
      exact lookupDir_mkdirDirs_preserve _ _ _ _ h1
    · rw [if_neg hnd]
      exact h1
  · intro pr hpr
    rw [List.mem_filter] at hpr
    refine ⟨?_, hpr.1⟩
    have := hpr.2
    simp only [Bool.not_eq_true'] at this
    simpa using this
  · intro pr hpr hst
    rw [List.mem_filter]
    exact ⟨hpr, by simp [hst]⟩

theorem claim_C8_witness :
    (change_history_directory envW wC8 "").mgr.history = [] ∧
    (change_history_directory envW wC8 "").mgr.history_index = -1 ∧
    ∃ fs1, lookupDir (change_history_directory envW wC8 "").dirs
        wC8.mgr.history_dir = some fs1 ∧
      (∀ pr ∈ fs1, isStateFile pr.1 = false ∧
        pr ∈ [("state_old-id.json", FileContent.json .null), ("notes.txt", .corrupt)]) ∧
      (∀ pr ∈ [("state_old-id.json", FileContent.json .null), ("notes.txt", .corrupt)],
        isStateFile pr.1 = false → pr ∈ fs1) :=
  claim_C8_relocate envW wC8 ""
    [("state_old-id.json", FileContent.json .null), ("notes.txt", .corrupt)]
    (by decide) rfl

end FileKitty
